import Mathlib

/-!
MBR partition-table parser: a shallow embedding of the Python source
`importcsv.py`.  The repository concatenates three near-identical scripts,
and two distinct decoders occur:

* `parse_mbr` at lines 171-199 (re-defined identically, up to local variable
  names, at lines 489-505): always returns one record per table slot, with a
  field `index`, keeping empty slots; embedded here as `parse_mbr_v1`.
* `parse_mbr` at lines 310-368: first checks that the buffer length is
  exactly 512 (raising `ValueError` otherwise), then skips empty slots; its
  records carry a field `table_index`; embedded here as `parse_mbr_v2`.

A buffer is a list of natural numbers, one per byte.  Fallible Python code
(raised exceptions) is modelled with `Option` and `Except`.  The float
`size_gb` is modelled as a rational: the Python value is an integer below
2 to the 41 divided by the power of two 2 to the 30, which IEEE doubles
represent exactly, so the rational model is faithful.
-/

set_option maxRecDepth 8000

deriving instance DecidableEq for Except

def SECTOR_SIZE : Nat := 512

/-- Little-endian unsigned 32-bit read of the four bytes at `off`, as done by
the `struct.unpack` format character `I`. -/
def le32 (l : List Nat) (off : Nat) : Nat :=
  l.getD off 0 + 256 * l.getD (off + 1) 0 + 65536 * l.getD (off + 2) 0 +
    16777216 * l.getD (off + 3) 0

/-- Python slice `mbr[start:start+16]`. -/
def entrySlice (mbr : List Nat) (start : Nat) : List Nat :=
  (mbr.drop start).take 16

/-- Record built for every slot by `parse_mbr` at lines 189-197 (and
496-504): the dictionary with keys index, ptype, boot, lba, sectors,
size_gb, empty. -/
structure Entry1 where
  index : Nat
  ptype : Nat
  boot : Bool
  lba : Nat
  sectors : Nat
  size_gb : ℚ
  empty : Bool
deriving DecidableEq

/-- Body of the slot loop of `parse_mbr` at lines 176-197: slice 16 bytes,
unpack them with `struct.unpack` (which raises unless the slice holds
exactly 16 bytes, hence the `Option`), and build the entry record. -/
def parse_entry_v1 (mbr : List Nat) (i : Nat) : Option Entry1 :=
  let start := 446 + i * 16
  let part := entrySlice mbr start
  if part.length = 16 then
    let status := part.getD 0 0
    let ptype := part.getD 4 0
    let lba_start := le32 part 8
    let sectors := le32 part 12
    let is_empty := ptype == 0 || sectors == 0
    let size_gb : ℚ :=
      if is_empty then 0 else ((sectors * SECTOR_SIZE : Nat) : ℚ) / 1024 ^ 3
    some { index := i, ptype := ptype, boot := status == 0x80, lba := lba_start,
           sectors := sectors, size_gb := size_gb, empty := is_empty }
  else
    none

/-- Embedding of `parse_mbr` at lines 171-199 (and 489-505): the loop
`for i in range(4)` unrolled; a raised `struct.error` in any iteration
aborts the whole call. -/
def parse_mbr_v1 (mbr : List Nat) : Option (List Entry1) := do
  let e0 ← parse_entry_v1 mbr 0
  let e1 ← parse_entry_v1 mbr 1
  let e2 ← parse_entry_v1 mbr 2
  let e3 ← parse_entry_v1 mbr 3
  return [e0, e1, e2, e3]

/-- Uppercase hexadecimal digit, value below 16. -/
def hexDigit (n : Nat) : Char :=
  if n < 10 then Char.ofNat (48 + n) else Char.ofNat (55 + n)

/-- Python format `02X` applied to a byte value: exactly two uppercase
hexadecimal digits. -/
def hex2 (n : Nat) : String :=
  String.mk [hexDigit (n / 16), hexDigit (n % 16)]

/-- Embedding of `type_name` at lines 202-212 (and 507-517): the dictionary
lookup with an f-string fallback. -/
def type_name (ptype : Nat) : String :=
  if ptype = 0x07 then "NTFS"
  else if ptype = 0x0B then "FAT32"
  else if ptype = 0x0C then "FAT32 LBA"
  else if ptype = 0x0E then "FAT16 LBA"
  else if ptype = 0x83 then "Linux"
  else if ptype = 0x82 then "Linux Swap"
  else if ptype = 0xEE then "GPT Protective"
  else "Unknown (0x" ++ hex2 ptype ++ ")"

/-- Record appended by `parse_mbr` at lines 350-360: the dictionary with
keys table_index, bootable, type, start_lba, num_sectors, size_bytes,
size_gb (the Python key `type` is rendered `part_type`, the unpack
variable name). -/
structure Entry2 where
  table_index : Nat
  bootable : Bool
  part_type : Nat
  start_lba : Nat
  num_sectors : Nat
  size_bytes : Nat
  size_gb : ℚ
deriving DecidableEq

/-- Body of the slot loop of `parse_mbr` at lines 328-360: unpack the
16-byte slice, skip the slot (`continue`) when its type is 0 or its sector
count is 0, otherwise build the record.  Reached only after the buffer
length was checked to be 512, so the slice always holds 16 bytes. -/
def parse_slot_v2 (mbr : List Nat) (i : Nat) : Option Entry2 :=
  let offset := 446 + i * 16
  let entry := entrySlice mbr offset
  let status := entry.getD 0 0
  let part_type := entry.getD 4 0
  let start_lba := le32 entry 8
  let num_sectors := le32 entry 12
  if part_type = 0 ∨ num_sectors = 0 then none
  else
    let size_bytes := num_sectors * SECTOR_SIZE
    some { table_index := i, bootable := status == 0x80, part_type := part_type,
           start_lba := start_lba, num_sectors := num_sectors,
           size_bytes := size_bytes, size_gb := (size_bytes : ℚ) / 1024 ^ 3 }

/-- Embedding of `parse_mbr` at lines 310-368: raise `ValueError` unless the
buffer holds exactly 512 bytes, then collect the non-empty slots of the
loop `for i in range(4)` in table order. -/
def parse_mbr_v2 (mbr : List Nat) : Except String (List Entry2) :=
  if mbr.length = SECTOR_SIZE then
    Except.ok (List.filterMap (parse_slot_v2 mbr) [0, 1, 2, 3])
  else
    Except.error "MBR must be exactly 512 bytes"

/-- Embedding of the signature check at lines 319-322: the warning is
printed exactly when `mbr_bytes[510:512] != b"\x55\xaa"`, so this Boolean
is true exactly when no warning is printed. -/
def signature_valid (mbr : List Nat) : Bool :=
  (mbr.drop 510).take 2 == [0x55, 0xAA]

/-- Embedding of `type_description` at lines 371-385. -/
def type_description (part_type : Nat) : String :=
  if part_type = 0x07 then "NTFS/exFAT/HPFS (0x07)"
  else if part_type = 0x0B then "W95 FAT32 (0x0B)"
  else if part_type = 0x0C then "W95 FAT32 LBA (0x0C)"
  else if part_type = 0x0E then "W95 FAT16 LBA (0x0E)"
  else if part_type = 0x83 then "Linux (0x83)"
  else if part_type = 0x82 then "Linux Swap (0x82)"
  else if part_type = 0xEE then "GPT protective MBR (0xEE)"
  else "Unknown / Other (0x" ++ hex2 part_type ++ ")"

/-- Embedding of the second-real-partition highlight of
`print_partition_info` at lines 411-425: `partitions[1]` when at least two
real partitions exist, an absent result otherwise. -/
def secondRealPartition (partitions : List Entry2) : Option Entry2 :=
  if 2 ≤ partitions.length then partitions[1]? else none

/-- Accumulation of `real_parts` in `analyze` at lines 233-249 (and
534-547): the non-empty entries, in table order. -/
def realParts (parts : List Entry1) : List Entry1 :=
  parts.filter (fun p => !p.empty)

/-- Embedding of the second-real-partition highlight of `analyze` at lines
252-260 (and 549-557): `real_parts[1]` when at least two real partitions
exist, an absent result otherwise. -/
def secondReal_v1 (parts : List Entry1) : Option Entry1 :=
  let real_parts := realParts parts
  if 2 ≤ real_parts.length then real_parts[1]? else none

/-- Embedding of `largest = max(partitions, key=lambda x: x["size_bytes"])`
at line 428, guarded by the empty check at lines 395-397: Python `max`
keeps the first element and replaces it only on a strictly greater key, so
ties go to the first element in table order. -/
def largestPartition (partitions : List Entry2) : Option Entry2 :=
  match partitions with
  | [] => none
  | p :: rest =>
      some (rest.foldl (fun best q => if best.size_bytes < q.size_bytes then q else best) p)

/-- Exceptions raised (and caught in `main`) by `analyze_image` at lines
437-451: `FileNotFoundError` from the `os.path.isfile` guard, `ValueError`
from the buffer-length check inside `parse_mbr`. -/
inductive ImgError where
  | fileNotFound (msg : String)
  | valueError (msg : String)
deriving DecidableEq

/-- Embedding of `f.read(SECTOR_SIZE)` at lines 447-448: return the first
512 bytes of the file, or every byte when the file is shorter; a short
read is not an error. -/
def read_first_sector (file : List Nat) : List Nat :=
  file.take SECTOR_SIZE

/-- Embedding of `analyze_image` at lines 437-451: fail when the path is
not a regular file, otherwise read the first sector and hand it to
`parse_mbr`, whose `ValueError` propagates to the caller. -/
def analyze_image (is_file : Bool) (file : List Nat) : Except ImgError (List Entry2) :=
  if !is_file then Except.error (ImgError.fileNotFound "Image not found")
  else
    match parse_mbr_v2 (read_first_sector file) with
    | Except.error msg => Except.error (ImgError.valueError msg)
    | Except.ok ps => Except.ok ps

/-- Embedding of `analyze` at lines 215-225 (and 519-526): print-and-return
when the path is not a regular file, otherwise read the first sector and
decode it with the v1 `parse_mbr`. -/
def analyze_v1 (is_file : Bool) (file : List Nat) : Option (List Entry1) :=
  if !is_file then none
  else parse_mbr_v1 (read_first_sector file)

/-- Little-endian byte rendering of a 32-bit value, used only to build
concrete test buffers. -/
def leBytes (n : Nat) : List Nat :=
  [n % 256, n / 256 % 256, n / 65536 % 256, n / 16777216 % 256]

/-- Sixteen bytes of one partition-table slot with the given status byte,
type byte, start LBA and sector count, and zeroed CHS fields; used only to
build concrete test buffers. -/
def slotBytes (status ptype lba sectors : Nat) : List Nat :=
  [status, 0, 0, 0, ptype, 0, 0, 0] ++ leBytes lba ++ leBytes sectors

/-- Concrete 512-byte buffer that is entirely zero. -/
def bufZero : List Nat := List.replicate 512 0

/-- Concrete 511-byte file content. -/
def buf511 : List Nat := List.replicate 511 0

/-- Concrete 512-byte buffer: real slots 0 and 2 with equal non-zero sector
counts, empty slots 1 and 3, valid signature. -/
def bufTie : List Nat :=
  List.replicate 446 0 ++ slotBytes 0x80 0x83 2048 204800 ++ List.replicate 16 0 ++
    slotBytes 0 0x07 300000 204800 ++ List.replicate 16 0 ++ [0x55, 0xAA]

/-- Concrete 512-byte buffer: all slots zero, valid signature. -/
def bufSig : List Nat := List.replicate 510 0 ++ [0x55, 0xAA]

/-- Concrete 512-byte buffer: slot 0 empty, slot 1 real, slots 2 and 3
empty, valid signature. -/
def bufSlot1 : List Nat :=
  List.replicate 446 0 ++ List.replicate 16 0 ++ slotBytes 0 0x83 2048 2048 ++
    List.replicate 32 0 ++ [0x55, 0xAA]

/-- Entry produced by the v1 parser for an all-zero slot. -/
def emptyEntry (i : Nat) : Entry1 := ⟨i, 0, false, 0, 0, 0, true⟩

/-- Hand-built sample entry, used to instantiate universally quantified
theorems at concrete inputs. -/
def sampleA : Entry2 := ⟨0, false, 0x83, 2048, 100, 51200, 0⟩

/-- Second hand-built sample entry, with the same `size_bytes` as
`sampleA`. -/
def sampleB : Entry2 := ⟨2, false, 0x07, 4096, 100, 51200, 0⟩

/-- Entry built by the v1 slot loop, written with absolute buffer offsets;
equal to what `parse_entry_v1` returns on a long-enough buffer
(`parse_entry_v1_eq`). -/
def entryAt (mbr : List Nat) (i : Nat) : Entry1 :=
  { index := i
    ptype := mbr.getD (446 + i * 16 + 4) 0
    boot := mbr.getD (446 + i * 16) 0 == 0x80
    lba := le32 mbr (446 + i * 16 + 8)
    sectors := le32 mbr (446 + i * 16 + 12)
    size_gb :=
      if mbr.getD (446 + i * 16 + 4) 0 == 0 || le32 mbr (446 + i * 16 + 12) == 0 then 0
      else ((le32 mbr (446 + i * 16 + 12) * SECTOR_SIZE : Nat) : ℚ) / 1024 ^ 3
    empty := mbr.getD (446 + i * 16 + 4) 0 == 0 || le32 mbr (446 + i * 16 + 12) == 0 }

/-- Slot result of the v2 loop, written with absolute buffer offsets; equal
to what `parse_slot_v2` returns on a long-enough buffer
(`parse_slot_v2_eq`). -/
def slotAt (mbr : List Nat) (i : Nat) : Option Entry2 :=
  if mbr.getD (446 + i * 16 + 4) 0 = 0 ∨ le32 mbr (446 + i * 16 + 12) = 0 then none
  else
    some { table_index := i
           bootable := mbr.getD (446 + i * 16) 0 == 0x80
           part_type := mbr.getD (446 + i * 16 + 4) 0
           start_lba := le32 mbr (446 + i * 16 + 8)
           num_sectors := le32 mbr (446 + i * 16 + 12)
           size_bytes := le32 mbr (446 + i * 16 + 12) * SECTOR_SIZE
           size_gb := ((le32 mbr (446 + i * 16 + 12) * SECTOR_SIZE : Nat) : ℚ) / 1024 ^ 3 }

lemma entrySlice_length {l : List Nat} {s : Nat} (h : s + 16 ≤ l.length) :
    (entrySlice l s).length = 16 := by
  simp only [entrySlice, List.length_take, List.length_drop]
  omega

lemma entrySlice_getD {l : List Nat} {s k : Nat} (hk : k < 16) (h : s + 16 ≤ l.length) :
    (entrySlice l s).getD k 0 = l.getD (s + k) 0 := by
  have h1 : k < (entrySlice l s).length := by rw [entrySlice_length h]; exact hk
  have h2 : s + k < l.length := by omega
  rw [List.getD_eq_getElem _ _ h1, List.getD_eq_getElem _ _ h2]
  simp [entrySlice]

lemma le32_entrySlice {l : List Nat} {s off : Nat} (hoff : off + 4 ≤ 16)
    (h : s + 16 ≤ l.length) :
    le32 (entrySlice l s) off = le32 l (s + off) := by
  unfold le32
  rw [entrySlice_getD (by omega) h, entrySlice_getD (by omega) h,
    entrySlice_getD (by omega) h, entrySlice_getD (by omega) h]
  simp [Nat.add_assoc]

lemma parse_entry_v1_eq {mbr : List Nat} {i : Nat} (h : 446 + i * 16 + 16 ≤ mbr.length) :
    parse_entry_v1 mbr i = some (entryAt mbr i) := by
  have hlen : (entrySlice mbr (446 + i * 16)).length = 16 := entrySlice_length h
  simp only [parse_entry_v1, hlen, if_pos]
  rw [entrySlice_getD (by omega) h, entrySlice_getD (by omega) h,
    le32_entrySlice (by omega) h, le32_entrySlice (by omega) h]
  rfl

lemma parse_slot_v2_eq {mbr : List Nat} {i : Nat} (h : 446 + i * 16 + 16 ≤ mbr.length) :
    parse_slot_v2 mbr i = slotAt mbr i := by
  simp only [parse_slot_v2, slotAt]
  rw [entrySlice_getD (by omega) h, entrySlice_getD (by omega) h,
    le32_entrySlice (by omega) h, le32_entrySlice (by omega) h]
  simp

lemma parse_mbr_v1_eq {mbr : List Nat} (h : 510 ≤ mbr.length) :
    parse_mbr_v1 mbr = some [entryAt mbr 0, entryAt mbr 1, entryAt mbr 2, entryAt mbr 3] := by
  have h0 := @parse_entry_v1_eq mbr 0 (by omega)
  have h1 := @parse_entry_v1_eq mbr 1 (by omega)
  have h2 := @parse_entry_v1_eq mbr 2 (by omega)
  have h3 := @parse_entry_v1_eq mbr 3 (by omega)
  simp [parse_mbr_v1, h0, h1, h2, h3]

lemma parse_mbr_v2_eq {mbr : List Nat} (h : mbr.length = 512) :
    parse_mbr_v2 mbr = Except.ok (List.filterMap (slotAt mbr) [0, 1, 2, 3]) := by
  have h0 := @parse_slot_v2_eq mbr 0 (by omega)
  have h1 := @parse_slot_v2_eq mbr 1 (by omega)
  have h2 := @parse_slot_v2_eq mbr 2 (by omega)
  have h3 := @parse_slot_v2_eq mbr 3 (by omega)
  simp [parse_mbr_v2, SECTOR_SIZE, h, List.filterMap_cons, h0, h1, h2, h3]

lemma entryAt_congr {b₁ b₂ : List Nat} (i : Nat) (hi : i < 4)
    (hag : ∀ j, 446 ≤ j → j ≤ 509 → b₁.getD j 0 = b₂.getD j 0) :
    entryAt b₁ i = entryAt b₂ i := by
  have h0 : b₁.getD (446 + i * 16) 0 = b₂.getD (446 + i * 16) 0 :=
    hag _ (by omega) (by omega)
  have h4 : b₁.getD (446 + i * 16 + 4) 0 = b₂.getD (446 + i * 16 + 4) 0 :=
    hag _ (by omega) (by omega)
  have hl : le32 b₁ (446 + i * 16 + 8) = le32 b₂ (446 + i * 16 + 8) := by
    unfold le32
    rw [hag _ (by omega) (by omega), hag _ (by omega) (by omega),
      hag _ (by omega) (by omega), hag _ (by omega) (by omega)]
  have hs : le32 b₁ (446 + i * 16 + 12) = le32 b₂ (446 + i * 16 + 12) := by
    unfold le32
    rw [hag _ (by omega) (by omega), hag _ (by omega) (by omega),
      hag _ (by omega) (by omega), hag _ (by omega) (by omega)]
  simp only [entryAt, h0, h4, hl, hs]

lemma slotAt_congr {b₁ b₂ : List Nat} (i : Nat) (hi : i < 4)
    (hag : ∀ j, 446 ≤ j → j ≤ 509 → b₁.getD j 0 = b₂.getD j 0) :
    slotAt b₁ i = slotAt b₂ i := by
  have h0 : b₁.getD (446 + i * 16) 0 = b₂.getD (446 + i * 16) 0 :=
    hag _ (by omega) (by omega)
  have h4 : b₁.getD (446 + i * 16 + 4) 0 = b₂.getD (446 + i * 16 + 4) 0 :=
    hag _ (by omega) (by omega)
  have hl : le32 b₁ (446 + i * 16 + 8) = le32 b₂ (446 + i * 16 + 8) := by
    unfold le32
    rw [hag _ (by omega) (by omega), hag _ (by omega) (by omega),
      hag _ (by omega) (by omega), hag _ (by omega) (by omega)]
  have hs : le32 b₁ (446 + i * 16 + 12) = le32 b₂ (446 + i * 16 + 12) := by
    unfold le32
    rw [hag _ (by omega) (by omega), hag _ (by omega) (by omega),
      hag _ (by omega) (by omega), hag _ (by omega) (by omega)]
  simp only [slotAt, h0, h4, hl, hs]

lemma slotAt_table_index {b : List Nat} {i : Nat} {p : Entry2}
    (h : slotAt b i = some p) : p.table_index = i := by
  unfold slotAt at h
  split at h
  · exact absurd h (by simp)
  · cases h
    rfl

lemma getD_drop_eq {b : List Nat} {s k : Nat} (h : s + k < b.length) :
    (b.drop s).getD k 0 = b.getD (s + k) 0 := by
  have h1 : k < (b.drop s).length := by simp [List.length_drop]; omega
  rw [List.getD_eq_getElem _ _ h1, List.getD_eq_getElem _ _ h]
  simp

lemma getD_take_eq {b : List Nat} {n k : Nat} (hk : k < n) (h : k < b.length) :
    (b.take n).getD k 0 = b.getD k 0 := by
  have h1 : k < (b.take n).length := by simp [List.length_take]; omega
  rw [List.getD_eq_getElem _ _ h1, List.getD_eq_getElem _ _ h]
  simp

lemma length_two_pair {l : List Nat} (h : l.length = 2) : l = [l.getD 0 0, l.getD 1 0] := by
  cases l with
  | nil => simp at h
  | cons a t =>
    cases t with
    | nil => simp at h
    | cons b t2 =>
      cases t2 with
      | nil => rfl
      | cons c t3 => simp at h

lemma entryAt_props (b : List Nat) (i : Nat) :
    ((entryAt b i).empty = true ↔ ((entryAt b i).ptype = 0 ∨ (entryAt b i).sectors = 0)) ∧
    ((entryAt b i).empty = true → (entryAt b i).size_gb = 0) ∧
    ((entryAt b i).empty = false →
      (entryAt b i).size_gb = (((entryAt b i).sectors : ℚ) * 512) / 2 ^ 30) := by
  refine ⟨by simp [entryAt], ?_, ?_⟩
  · intro h
    have h' : (b.getD (446 + i * 16 + 4) 0 == 0 || le32 b (446 + i * 16 + 12) == 0) = true := by
      simpa [entryAt] using h
    show (if b.getD (446 + i * 16 + 4) 0 == 0 || le32 b (446 + i * 16 + 12) == 0 then (0 : ℚ)
        else ((le32 b (446 + i * 16 + 12) * SECTOR_SIZE : Nat) : ℚ) / 1024 ^ 3) = 0
    rw [if_pos h']
  · intro h
    have h' : (b.getD (446 + i * 16 + 4) 0 == 0 || le32 b (446 + i * 16 + 12) == 0) = false := by
      simpa [entryAt] using h
    show (if b.getD (446 + i * 16 + 4) 0 == 0 || le32 b (446 + i * 16 + 12) == 0 then (0 : ℚ)
        else ((le32 b (446 + i * 16 + 12) * SECTOR_SIZE : Nat) : ℚ) / 1024 ^ 3) =
      ((le32 b (446 + i * 16 + 12) : ℚ) * 512) / 2 ^ 30
    rw [if_neg (by rw [h']; simp)]
    push_cast [SECTOR_SIZE]
    norm_num

lemma slotAt_props {b : List Nat} {i : Nat} {p : Entry2} (h : slotAt b i = some p) :
    p.part_type ≠ 0 ∧ p.num_sectors ≠ 0 ∧ p.size_bytes = p.num_sectors * 512 ∧
    p.size_gb = (p.size_bytes : ℚ) / 2 ^ 30 := by
  unfold slotAt at h
  split at h
  · exact absurd h (by simp)
  · next hcond =>
    push_neg at hcond
    cases h
    refine ⟨hcond.1, hcond.2, rfl, ?_⟩
    show ((le32 b (446 + i * 16 + 12) * SECTOR_SIZE : Nat) : ℚ) / 1024 ^ 3 = _
    norm_num [SECTOR_SIZE]

lemma foldl_max_spec (p : Entry2) (rest : List Entry2) :
    ∃ l₁ l₂,
      p :: rest =
        l₁ ++ (rest.foldl (fun best q => if best.size_bytes < q.size_bytes then q else best) p) :: l₂ ∧
      (∀ q ∈ l₁,
        q.size_bytes <
          (rest.foldl (fun best q => if best.size_bytes < q.size_bytes then q else best) p).size_bytes) ∧
      (∀ q ∈ p :: rest,
        q.size_bytes ≤
          (rest.foldl (fun best q => if best.size_bytes < q.size_bytes then q else best) p).size_bytes) := by
  induction rest generalizing p with
  | nil => exact ⟨[], [], rfl, by simp, by simp⟩
  | cons q rest ih =>
    by_cases hq : p.size_bytes < q.size_bytes
    · have hstep :
          (q :: rest).foldl (fun best q => if best.size_bytes < q.size_bytes then q else best) p =
            rest.foldl (fun best q => if best.size_bytes < q.size_bytes then q else best) q := by
        simp [hq]
      obtain ⟨l₁, l₂, hsplit, hlt, hle⟩ := ih q
      refine ⟨p :: l₁, l₂, ?_, ?_, ?_⟩
      · rw [hstep]
        simpa [List.cons_append] using congrArg (List.cons p) hsplit
      · intro x hx
        rw [hstep]
        rcases List.mem_cons.mp hx with hx | hx
        · subst hx
          exact lt_of_lt_of_le hq (hle q (List.mem_cons_self _ _))
        · exact hlt x hx
      · intro x hx
        rw [hstep]
        rcases List.mem_cons.mp hx with hx | hx
        · subst hx
          exact le_of_lt (lt_of_lt_of_le hq (hle q (List.mem_cons_self _ _)))
        · exact hle x hx
    · have hstep :
          (q :: rest).foldl (fun best q => if best.size_bytes < q.size_bytes then q else best) p =
            rest.foldl (fun best q => if best.size_bytes < q.size_bytes then q else best) p := by
        simp [hq]
      obtain ⟨l₁, l₂, hsplit, hlt, hle⟩ := ih p
      cases l₁ with
      | nil =>
        simp only [List.nil_append] at hsplit
        have h1 :
            rest.foldl (fun best q => if best.size_bytes < q.size_bytes then q else best) p = p := by
          have := congrArg List.head? hsplit
          simpa using this.symm
        refine ⟨[], q :: rest, ?_, by simp, ?_⟩
        · rw [hstep, h1]
          rfl
        · intro x hx
          rw [hstep, h1]
          rcases List.mem_cons.mp hx with hx | hx
          · subst hx; exact le_refl _
          rcases List.mem_cons.mp hx with hx | hx
          · subst hx; exact Nat.le_of_not_lt hq
          · have := hle x (List.mem_cons_of_mem _ hx)
            rw [h1] at this
            exact this
      | cons a l₁' =>
        simp only [List.cons_append] at hsplit
        injection hsplit with ha htail
        have hpr :
            p.size_bytes <
              (rest.foldl (fun best q => if best.size_bytes < q.size_bytes then q else best)
                p).size_bytes := by
          have := hlt a (List.mem_cons_self _ _)
          rw [← ha] at this
          exact this
        refine ⟨p :: q :: l₁', l₂, ?_, ?_, ?_⟩
        · rw [hstep]
          simp only [List.cons_append]
          rw [← htail]
        · intro x hx
          rw [hstep]
          rcases List.mem_cons.mp hx with hx | hx
          · subst hx; exact hpr
          rcases List.mem_cons.mp hx with hx | hx
          · subst hx; exact lt_of_le_of_lt (Nat.le_of_not_lt hq) hpr
          · exact hlt x (List.mem_cons_of_mem _ hx)
        · intro x hx
          rw [hstep]
          rcases List.mem_cons.mp hx with hx | hx
          · subst hx; exact hle _ (List.mem_cons_self _ _)
          rcases List.mem_cons.mp hx with hx | hx
          · subst hx
            exact le_trans (Nat.le_of_not_lt hq) (hle p (List.mem_cons_self _ _))
          · exact hle x (List.mem_cons_of_mem _ hx)

/-- C1 (counterexample): the claim says every 512-byte buffer decodes to
exactly 4 entries with `table_index` at position `i` equal to `i`.  The
`parse_mbr` at lines 310-368 skips empty slots: the all-zero 512-byte
buffer decodes to 0 entries, and a buffer whose only real slot is slot 1
decodes to a single entry whose `table_index` is 1, at position 0. -/
theorem c1_counterexample :
    parse_mbr_v2 bufZero = Except.ok [] ∧
    ((parse_mbr_v2 bufSlot1).toOption.map (List.map Entry2.table_index)) = some [1] := by
  constructor
  · decide
  · decide

/-- C1 (amended): on every 512-byte buffer, the `parse_mbr` at lines
171-199 (and 489-505) returns exactly 4 entries in table order, the entry
at position `i` carrying index `i`; the `parse_mbr` at lines 310-368
returns only the non-empty slots, at most 4, in table order, each entry's
`table_index` being its slot number (so the indices are strictly
increasing and below 4, but not necessarily equal to the position). -/
theorem c1_amended_entry_count :
    ∀ b : List Nat, b.length = 512 →
      (∃ es, parse_mbr_v1 b = some es ∧ es.length = 4 ∧
        ∀ (i : Nat) (hi : i < es.length), (es.get ⟨i, hi⟩).index = i) ∧
      (∃ ps, parse_mbr_v2 b = Except.ok ps ∧ ps.length ≤ 4 ∧
        List.Pairwise (fun p q => p.table_index < q.table_index) ps ∧
        ∀ p ∈ ps, p.table_index < 4) := by
  intro b hb
  constructor
  · refine ⟨_, parse_mbr_v1_eq (by omega), rfl, ?_⟩
    intro i hi
    have hi4 : i < 4 := by simpa using hi
    interval_cases i <;> rfl
  · refine ⟨_, parse_mbr_v2_eq hb, ?_, ?_, ?_⟩
    · exact List.length_filterMap_le _ _
    · have hpw : List.Pairwise (fun a a' : Nat => a < a') [0, 1, 2, 3] := by decide
      refine List.Pairwise.filterMap (slotAt b) ?_ hpw
      intro a a' haa p hp p' hp'
      rw [slotAt_table_index (Option.mem_def.mp hp),
        slotAt_table_index (Option.mem_def.mp hp')]
      exact haa
    · intro p hp
      obtain ⟨a, ha, hfa⟩ := List.mem_filterMap.mp hp
      rw [slotAt_table_index hfa]
      simp only [List.mem_cons, List.not_mem_nil, or_false] at ha
      rcases ha with h | h | h | h <;> omega

/-- C1 (witness): the amended statement instantiated at the concrete buffer
`bufTie`. -/
theorem c1_amended_witness :
    (∃ es, parse_mbr_v1 bufTie = some es ∧ es.length = 4 ∧
      ∀ (i : Nat) (hi : i < es.length), (es.get ⟨i, hi⟩).index = i) ∧
    (∃ ps, parse_mbr_v2 bufTie = Except.ok ps ∧ ps.length ≤ 4 ∧
      List.Pairwise (fun p q => p.table_index < q.table_index) ps ∧
      ∀ p ∈ ps, p.table_index < 4) :=
  c1_amended_entry_count bufTie (by decide)

/-- C2 (counterexample): the claim says a file shorter than 512 bytes makes
the sector read fail with `ImageTooSmall` and decode is never invoked.  On
a 511-byte file the read succeeds and returns the 511 bytes; decode IS
invoked on the short buffer and it is decode's own length guard that
raises `ValueError`; the v1 `analyze` even decodes the 511-byte buffer
successfully. -/
theorem c2_counterexample :
    read_first_sector buf511 = buf511 ∧
    analyze_image true buf511 =
      Except.error (ImgError.valueError "MBR must be exactly 512 bytes") ∧
    parse_mbr_v2 (read_first_sector buf511) =
      Except.error "MBR must be exactly 512 bytes" ∧
    (analyze_v1 true buf511).isSome = true := by
  refine ⟨by decide, by decide, by decide, by decide⟩

/-- C2 (amended): for every file shorter than 512 bytes, the read step
succeeds and returns all available bytes (there is no reader-level
`ImageTooSmall`); `analyze_image` (lines 437-451) invokes `parse_mbr` on
the short buffer and the failure is `parse_mbr`'s own `ValueError`, so no
partition table is produced; `analyze` (lines 215-267 and 519-526)
decodes a buffer of at least 510 bytes without any error. -/
theorem c2_amended_short_read :
    ∀ file : List Nat, file.length < 512 →
      read_first_sector file = file ∧
      analyze_image true file =
        Except.error (ImgError.valueError "MBR must be exactly 512 bytes") ∧
      parse_mbr_v2 (read_first_sector file) =
        Except.error "MBR must be exactly 512 bytes" ∧
      (510 ≤ file.length → (analyze_v1 true file).isSome = true) := by
  intro file h
  have ht : read_first_sector file = file := by
    simp [read_first_sector, SECTOR_SIZE, List.take_of_length_le (le_of_lt h)]
  have hne : ¬ file.length = SECTOR_SIZE := by simp [SECTOR_SIZE]; omega
  have hp : parse_mbr_v2 file = Except.error "MBR must be exactly 512 bytes" := by
    simp [parse_mbr_v2, hne]
  refine ⟨ht, ?_, ?_, ?_⟩
  · simp [analyze_image, ht, hp]
  · rw [ht]; exact hp
  · intro h510
    simp [analyze_v1, ht, parse_mbr_v1_eq h510]

/-- C2 (witness): the amended statement instantiated at the concrete
511-byte file `buf511`. -/
theorem c2_amended_witness :
    read_first_sector buf511 = buf511 ∧
    analyze_image true buf511 =
      Except.error (ImgError.valueError "MBR must be exactly 512 bytes") ∧
    parse_mbr_v2 (read_first_sector buf511) =
      Except.error "MBR must be exactly 512 bytes" ∧
    (510 ≤ buf511.length → (analyze_v1 true buf511).isSome = true) :=
  c2_amended_short_read buf511 (by decide)

/-- C9: decoding is deterministic and idempotent: two runs of either
decoder on the same buffer produce identical values. -/
theorem c9_decode_deterministic :
    ∀ (b : List Nat) (r₁ r₂ : Except String (List Entry2)) (s₁ s₂ : Option (List Entry1)),
      parse_mbr_v2 b = r₁ → parse_mbr_v2 b = r₂ → parse_mbr_v1 b = s₁ → parse_mbr_v1 b = s₂ →
      r₁ = r₂ ∧ s₁ = s₂ := by
  intro b r₁ r₂ s₁ s₂ h1 h2 h3 h4
  exact ⟨by rw [← h1, ← h2], by rw [← h3, ← h4]⟩

/-- C9 (witness): determinism instantiated at the all-zero buffer. -/
theorem c9_witness :
    ((Except.ok [] : Except String (List Entry2)) = Except.ok []) ∧
    (some [emptyEntry 0, emptyEntry 1, emptyEntry 2, emptyEntry 3] =
      some [emptyEntry 0, emptyEntry 1, emptyEntry 2, emptyEntry 3]) :=
  c9_decode_deterministic bufZero (Except.ok []) (Except.ok [])
    (some [emptyEntry 0, emptyEntry 1, emptyEntry 2, emptyEntry 3])
    (some [emptyEntry 0, emptyEntry 1, emptyEntry 2, emptyEntry 3])
    (by decide) (by decide) (by decide) (by decide)

/-- C10: the decoded entries depend only on bytes 446 through 509 of the
buffer: two 512-byte buffers agreeing there decode identically under both
decoders; the bootstrap area (bytes 0-445) and the signature bytes
(510-511) never influence any entry field. -/
theorem c10_table_bytes_only :
    ∀ b₁ b₂ : List Nat, b₁.length = 512 → b₂.length = 512 →
      (∀ j, 446 ≤ j → j ≤ 509 → b₁.getD j 0 = b₂.getD j 0) →
      parse_mbr_v1 b₁ = parse_mbr_v1 b₂ ∧ parse_mbr_v2 b₁ = parse_mbr_v2 b₂ := by
  intro b₁ b₂ h₁ h₂ hag
  constructor
  · rw [parse_mbr_v1_eq (by omega), parse_mbr_v1_eq (by omega)]
    rw [entryAt_congr 0 (by omega) hag, entryAt_congr 1 (by omega) hag,
      entryAt_congr 2 (by omega) hag, entryAt_congr 3 (by omega) hag]
  · rw [parse_mbr_v2_eq h₁, parse_mbr_v2_eq h₂]
    simp only [List.filterMap_cons, List.filterMap_nil,
      slotAt_congr 0 (by omega) hag, slotAt_congr 1 (by omega) hag,
      slotAt_congr 2 (by omega) hag, slotAt_congr 3 (by omega) hag]

/-- C10 (witness): `bufZero` and `bufSig` differ exactly in the signature
bytes, and decode identically. -/
theorem c10_witness :
    parse_mbr_v1 bufZero = parse_mbr_v1 bufSig ∧ parse_mbr_v2 bufZero = parse_mbr_v2 bufSig := by
  apply c10_table_bytes_only bufZero bufSig (by decide) (by decide)
  intro j h1 h2
  have hz : bufZero.getD j 0 = 0 := by
    show (List.replicate 512 (0 : Nat)).getD j 0 = 0
    rw [List.getD_eq_getElem?_getD]
    rw [List.getElem?_getD_replicate_default_eq]
  have hs : bufSig.getD j 0 = 0 := by
    show (List.replicate 510 0 ++ [0x55, 0xAA]).getD j 0 = 0
    rw [List.getD_append _ _ _ _ (by rw [List.length_replicate]; omega)]
    rw [List.getD_eq_getElem?_getD]
    rw [List.getElem?_getD_replicate_default_eq]
  rw [hz, hs]

/-- C3: an absent or invalid boot signature is not an error: on every
512-byte buffer the decoder succeeds, its entries equal those of the same
buffer with a valid signature spliced in, and the advisory signature flag
is true exactly when bytes 510-511 are 0x55 0xAA. -/
theorem c3_signature_advisory :
    ∀ b : List Nat, b.length = 512 →
      (∃ ps, parse_mbr_v2 b = Except.ok ps) ∧
      parse_mbr_v2 b = parse_mbr_v2 (b.take 510 ++ [0x55, 0xAA]) ∧
      (signature_valid b = true ↔ (b.getD 510 0 = 0x55 ∧ b.getD 511 0 = 0xAA)) ∧
      signature_valid (b.take 510 ++ [0x55, 0xAA]) = true := by
  intro b hb
  have h510 : (b.take 510).length = 510 := by
    rw [List.length_take]; omega
  have hlen2 : (b.take 510 ++ [0x55, 0xAA]).length = 512 := by
    simp [List.length_append, h510]
  refine ⟨⟨_, parse_mbr_v2_eq hb⟩, ?_, ?_, ?_⟩
  · have hag : ∀ j, 446 ≤ j → j ≤ 509 →
        b.getD j 0 = (b.take 510 ++ [0x55, 0xAA]).getD j 0 := by
      intro j hj1 hj2
      rw [List.getD_append _ _ _ _ (by rw [h510]; omega)]
      rw [getD_take_eq (by omega) (by omega)]
    rw [parse_mbr_v2_eq hb, parse_mbr_v2_eq hlen2]
    simp only [List.filterMap_cons, List.filterMap_nil,
      slotAt_congr 0 (by omega) hag, slotAt_congr 1 (by omega) hag,
      slotAt_congr 2 (by omega) hag, slotAt_congr 3 (by omega) hag]
  · have hd2 : (b.drop 510).length = 2 := by rw [List.length_drop]; omega
    have hpair : b.drop 510 = [b.getD 510 0, b.getD 511 0] := by
      have h := length_two_pair hd2
      rw [getD_drop_eq (by omega), getD_drop_eq (by omega)] at h
      exact h
    simp [signature_valid, hpair]
  · have hdrop : (b.take 510 ++ [0x55, 0xAA]).drop 510 = [0x55, 0xAA] := by
      rw [List.drop_left' h510]
    simp [signature_valid, hdrop]

/-- C3 (witness): the signature theorem instantiated at the all-zero
buffer, whose signature is invalid. -/
theorem c3_witness :
    (∃ ps, parse_mbr_v2 bufZero = Except.ok ps) ∧
    parse_mbr_v2 bufZero = parse_mbr_v2 (bufZero.take 510 ++ [0x55, 0xAA]) ∧
    (signature_valid bufZero = true ↔
      (bufZero.getD 510 0 = 0x55 ∧ bufZero.getD 511 0 = 0xAA)) ∧
    signature_valid (bufZero.take 510 ++ [0x55, 0xAA]) = true :=
  c3_signature_advisory bufZero (by decide)

/-- C4: `largestPartition` is absent on an empty list and otherwise returns
the first entry, in table order, of greatest `size_bytes`; in particular on
`bufTie` (two real entries of equal non-zero size at table indices 0 and 2)
it returns the entry at table index 0. -/
theorem c4_largest_partition :
    largestPartition ([] : List Entry2) = none ∧
    (∀ (ps : List Entry2) (p : Entry2), largestPartition ps = some p →
      (∀ q ∈ ps, q.size_bytes ≤ p.size_bytes) ∧
      ∃ l₁ l₂, ps = l₁ ++ p :: l₂ ∧ ∀ q ∈ l₁, q.size_bytes < p.size_bytes) ∧
    ((parse_mbr_v2 bufTie).toOption.map
        (fun ps => ((largestPartition ps).map Entry2.table_index,
          ps.map Entry2.table_index, ps.map Entry2.size_bytes)) =
      some (some 0, [0, 2], [104857600, 104857600])) := by
  refine ⟨rfl, ?_, by decide⟩
  intro ps p hp
  cases ps with
  | nil => exact absurd hp (by simp [largestPartition])
  | cons p0 rest =>
    have hp' :
        rest.foldl (fun best q => if best.size_bytes < q.size_bytes then q else best) p0 = p := by
      simpa [largestPartition] using hp
    obtain ⟨l₁, l₂, hsplit, hlt, hle⟩ := foldl_max_spec p0 rest
    rw [hp'] at hsplit hlt hle
    exact ⟨hle, l₁, l₂, hsplit, hlt⟩

/-- C4 (witness): the stable-max property instantiated at a concrete
two-entry list with equal sizes; the first entry is returned. -/
theorem c4_largest_witness :
    (∀ q ∈ [sampleA, sampleB], q.size_bytes ≤ sampleA.size_bytes) ∧
    ∃ l₁ l₂, [sampleA, sampleB] = l₁ ++ sampleA :: l₂ ∧
      ∀ q ∈ l₁, q.size_bytes < sampleA.size_bytes :=
  c4_largest_partition.2.1 [sampleA, sampleB] sampleA (by decide)

/-- C5: `secondRealPartition` (and the v1 highlight over the filtered
`real_parts`) is absent, never an error, when fewer than 2 real partitions
exist, and otherwise returns exactly the element at position 1 of the
real-partition subsequence. -/
theorem c5_second_real :
    ∀ (parts : List Entry1) (ps : List Entry2),
      ((realParts parts).length < 2 → secondReal_v1 parts = none) ∧
      (∀ h2 : 2 ≤ (realParts parts).length,
        secondReal_v1 parts = some ((realParts parts).get ⟨1, by omega⟩)) ∧
      (ps.length < 2 → secondRealPartition ps = none) ∧
      (∀ h2 : 2 ≤ ps.length, secondRealPartition ps = some (ps.get ⟨1, by omega⟩)) := by
  intro parts ps
  refine ⟨?_, ?_, ?_, ?_⟩
  · intro h
    simp only [secondReal_v1]
    rw [if_neg (by omega)]
  · intro h2
    simp only [secondReal_v1]
    rw [if_pos h2, List.getElem?_eq_getElem (by omega)]
    simp [List.get_eq_getElem]
  · intro h
    simp only [secondRealPartition]
    rw [if_neg (by omega)]
  · intro h2
    simp only [secondRealPartition]
    rw [if_pos h2, List.getElem?_eq_getElem (by omega)]
    simp [List.get_eq_getElem]

/-- C5 (witness): at a concrete two-entry list the second element is
returned. -/
theorem c5_witness : secondRealPartition [sampleA, sampleB] = some sampleB := by
  have h := (c5_second_real [] [sampleA, sampleB]).2.2.2 (by decide)
  simpa using h

/-- C6: for every decoded v1 entry, `empty` holds exactly when the type
code or the sector count is zero, the size is 0 for empty entries and
exactly sectors times 512 (in GiB, divided by 2 to the 30) otherwise; every
decoded v2 entry is non-empty with `size_bytes` exactly sectors times 512
and `size_gb` equal to `size_bytes` divided by 2 to the 30. -/
theorem c6_is_empty_size :
    ∀ b : List Nat, b.length = 512 →
      (∀ es, parse_mbr_v1 b = some es → ∀ e ∈ es,
        ((e.empty = true) ↔ (e.ptype = 0 ∨ e.sectors = 0)) ∧
        (e.empty = true → e.size_gb = 0) ∧
        (e.empty = false → e.size_gb = ((e.sectors : ℚ) * 512) / 2 ^ 30)) ∧
      (∀ ps, parse_mbr_v2 b = Except.ok ps → ∀ p ∈ ps,
        p.part_type ≠ 0 ∧ p.num_sectors ≠ 0 ∧ p.size_bytes = p.num_sectors * 512 ∧
        p.size_gb = (p.size_bytes : ℚ) / 2 ^ 30) := by
  intro b hb
  constructor
  · intro es hes e he
    rw [parse_mbr_v1_eq (by omega)] at hes
    injection hes with hes
    subst hes
    simp only [List.mem_cons, List.not_mem_nil, or_false] at he
    rcases he with h | h | h | h <;> (subst h; exact entryAt_props b _)
  · intro ps hps p hp
    rw [parse_mbr_v2_eq hb] at hps
    injection hps with hps
    subst hps
    obtain ⟨a, ha, hfa⟩ := List.mem_filterMap.mp hp
    exact slotAt_props hfa

/-- C6 (witness): the entry properties instantiated at the all-zero buffer
and its first (empty) entry. -/
theorem c6_witness :
    (((emptyEntry 0).empty = true) ↔ ((emptyEntry 0).ptype = 0 ∨ (emptyEntry 0).sectors = 0)) ∧
    ((emptyEntry 0).empty = true → (emptyEntry 0).size_gb = 0) ∧
    ((emptyEntry 0).empty = false →
      (emptyEntry 0).size_gb = (((emptyEntry 0).sectors : ℚ) * 512) / 2 ^ 30) :=
  (c6_is_empty_size bufZero (by decide)).1
    [emptyEntry 0, emptyEntry 1, emptyEntry 2, emptyEntry 3] (by decide)
    (emptyEntry 0) (by decide)

/-- C7: for each slot i below 4, both decoders read the status byte at
offset 446 + 16i, the type byte at 446 + 16i + 4, the start LBA as a 4-byte
little-endian unsigned integer at 446 + 16i + 8 and the sector count
likewise at 446 + 16i + 12; the bootable flag is true exactly when the
status byte is 0x80. -/
theorem c7_field_offsets :
    ∀ b : List Nat, b.length = 512 → ∀ i : Nat, i < 4 →
      (∀ e, parse_entry_v1 b i = some e →
        (e.boot = true ↔ b.getD (446 + 16 * i) 0 = 0x80) ∧
        e.ptype = b.getD (446 + 16 * i + 4) 0 ∧
        e.lba = b.getD (446 + 16 * i + 8) 0 + 256 * b.getD (446 + 16 * i + 9) 0 +
          65536 * b.getD (446 + 16 * i + 10) 0 + 16777216 * b.getD (446 + 16 * i + 11) 0 ∧
        e.sectors = b.getD (446 + 16 * i + 12) 0 + 256 * b.getD (446 + 16 * i + 13) 0 +
          65536 * b.getD (446 + 16 * i + 14) 0 + 16777216 * b.getD (446 + 16 * i + 15) 0) ∧
      (∀ p, parse_slot_v2 b i = some p →
        (p.bootable = true ↔ b.getD (446 + 16 * i) 0 = 0x80) ∧
        p.part_type = b.getD (446 + 16 * i + 4) 0 ∧
        p.start_lba = b.getD (446 + 16 * i + 8) 0 + 256 * b.getD (446 + 16 * i + 9) 0 +
          65536 * b.getD (446 + 16 * i + 10) 0 + 16777216 * b.getD (446 + 16 * i + 11) 0 ∧
        p.num_sectors = b.getD (446 + 16 * i + 12) 0 + 256 * b.getD (446 + 16 * i + 13) 0 +
          65536 * b.getD (446 + 16 * i + 14) 0 + 16777216 * b.getD (446 + 16 * i + 15) 0) := by
  intro b hb i hi
  have hmul : 446 + 16 * i = 446 + i * 16 := by ring
  constructor
  · intro e he
    rw [parse_entry_v1_eq (by omega)] at he
    injection he with he
    subst he
    refine ⟨?_, ?_, ?_, ?_⟩
    · simp [entryAt, hmul]
    · simp [entryAt, hmul]
    · show le32 b (446 + i * 16 + 8) = _
      simp [le32, hmul, Nat.add_assoc]
    · show le32 b (446 + i * 16 + 12) = _
      simp [le32, hmul, Nat.add_assoc]
  · intro p hp
    rw [parse_slot_v2_eq (by omega)] at hp
    unfold slotAt at hp
    split at hp
    · exact absurd hp (by simp)
    · injection hp with hp
      subst hp
      refine ⟨?_, ?_, ?_, ?_⟩
      · simp [hmul]
      · simp [hmul]
      · show le32 b (446 + i * 16 + 8) = _
        simp [le32, hmul, Nat.add_assoc]
      · show le32 b (446 + i * 16 + 12) = _
        simp [le32, hmul, Nat.add_assoc]

/-- C7 (witness): the offset equations instantiated at the all-zero buffer,
slot 0. -/
theorem c7_witness :
    ((emptyEntry 0).boot = true ↔ bufZero.getD (446 + 16 * 0) 0 = 0x80) ∧
    (emptyEntry 0).ptype = bufZero.getD (446 + 16 * 0 + 4) 0 ∧
    (emptyEntry 0).lba = bufZero.getD (446 + 16 * 0 + 8) 0 +
      256 * bufZero.getD (446 + 16 * 0 + 9) 0 +
      65536 * bufZero.getD (446 + 16 * 0 + 10) 0 +
      16777216 * bufZero.getD (446 + 16 * 0 + 11) 0 ∧
    (emptyEntry 0).sectors = bufZero.getD (446 + 16 * 0 + 12) 0 +
      256 * bufZero.getD (446 + 16 * 0 + 13) 0 +
      65536 * bufZero.getD (446 + 16 * 0 + 14) 0 +
      16777216 * bufZero.getD (446 + 16 * 0 + 15) 0 :=
  (c7_field_offsets bufZero (by decide) 0 (by decide)).1 (emptyEntry 0) (by decide)

/-- C8: both classification tables map 0x07, 0x0B, 0x0C, 0x0E, 0x82, 0x83
and 0xEE to their fixed labels, and every other non-zero byte to an
Unknown label embedding the raw two-digit uppercase hexadecimal value. -/
theorem c8_type_classification :
    type_name 0x07 = "NTFS" ∧ type_name 0x0B = "FAT32" ∧ type_name 0x0C = "FAT32 LBA" ∧
    type_name 0x0E = "FAT16 LBA" ∧ type_name 0x82 = "Linux Swap" ∧ type_name 0x83 = "Linux" ∧
    type_name 0xEE = "GPT Protective" ∧
    type_description 0x07 = "NTFS/exFAT/HPFS (0x07)" ∧
    type_description 0x0B = "W95 FAT32 (0x0B)" ∧
    type_description 0x0C = "W95 FAT32 LBA (0x0C)" ∧
    type_description 0x0E = "W95 FAT16 LBA (0x0E)" ∧
    type_description 0x82 = "Linux Swap (0x82)" ∧
    type_description 0x83 = "Linux (0x83)" ∧
    type_description 0xEE = "GPT protective MBR (0xEE)" ∧
    (∀ c : Nat, c < 256 → c ≠ 0 →
      c ∉ ([0x07, 0x0B, 0x0C, 0x0E, 0x82, 0x83, 0xEE] : List Nat) →
      type_name c = "Unknown (0x" ++ hex2 c ++ ")" ∧
      type_description c = "Unknown / Other (0x" ++ hex2 c ++ ")") := by
  refine ⟨rfl, rfl, rfl, rfl, rfl, rfl, rfl, rfl, rfl, rfl, rfl, rfl, rfl, rfl, ?_⟩
  intro c hc hz hmem
  simp only [List.mem_cons, List.not_mem_nil, or_false] at hmem
  push_neg at hmem
  obtain ⟨n1, n2, n3, n4, n5, n6, n7⟩ := hmem
  constructor
  · simp [type_name, n1, n2, n3, n4, n5, n6, n7]
  · simp [type_description, n1, n2, n3, n4, n5, n6, n7]

/-- C8 (witness): the fallback branch instantiated at the non-zero,
unlisted code 0x42. -/
theorem c8_witness :
    type_name 66 = "Unknown (0x" ++ hex2 66 ++ ")" ∧
    type_description 66 = "Unknown / Other (0x" ++ hex2 66 ++ ")" :=
  c8_type_classification.2.2.2.2.2.2.2.2.2.2.2.2.2.2 66 (by decide) (by decide) (by decide)
